import Mathlib

/-!
Verification of the scheduling workflow of `server/simple_scheduler.py`
(`SimpleTimeScheduler`): time normalization, calendar context fetching,
LLM-response parsing/validation, and serialized event creation.

Shallow embedding conventions:
* A Python `datetime` is `PyDateTime`: either naive (wall-clock minutes,
  no tzinfo) or aware (wall-clock minutes plus a UTC offset in minutes).
  The instant an aware datetime denotes is `wall - off`.
* The external `dateutil`/`pytz` behaviour is abstracted by function
  parameters: `rawParse` models `dateutil.parser.parse` (which may raise,
  hence `Except`), `locOff` models the offset `pytz`'s `localize` attaches
  to a given wall time, `convOff` the offset `astimezone(EASTERN_TZ)`
  assigns to a given UTC instant.
* Fallible Python code (raising) is `Except`/`Option`; a caught exception
  is the corresponding error branch.
-/

namespace Mailbot

/-- Python `datetime`: naive (no tzinfo) or aware (with a UTC offset).
Wall clock and offsets are integers (minutes). -/
inductive PyDateTime
  | naive (wall : Int)
  | aware (wall : Int) (off : Int)
deriving DecidableEq

/-- Abstract syntax of the ISO strings exchanged with `dateutil`:
`isoformat()` of a naive datetime carries no offset, of an aware one it
carries the offset. -/
inductive TimeStr
  | tnaive (wall : Int)
  | taware (wall : Int) (off : Int)
deriving DecidableEq

/-- `dateutil.parser.parse` applied to an ISO string produced by
`isoformat`: a string without offset parses to a naive datetime, one with
an offset to the corresponding aware datetime. -/
def parseTimeStr : TimeStr → PyDateTime
  | .tnaive w => .naive w
  | .taware w o => .aware w o

/-- Python `datetime.isoformat()` on our abstract datetimes. -/
def isoformat : PyDateTime → TimeStr
  | .naive w => .tnaive w
  | .aware w o => .taware w o

/-- `SimpleTimeScheduler._to_eastern`:
`EASTERN_TZ.localize(dt) if dt.tzinfo is None else dt.astimezone(EASTERN_TZ)`.
`localize` keeps the wall time and attaches the offset `locOff wall`;
`astimezone` keeps the instant `wall - off` and re-expresses it with the
offset `convOff instant`. -/
def toEastern (locOff convOff : Int → Int) : PyDateTime → PyDateTime
  | .naive w => .aware w (locOff w)
  | .aware w o => .aware ((w - o) + convOff (w - o)) (convOff (w - o))

/-- `SimpleTimeScheduler._parse_time`: returns `None` for a falsy (empty)
string, catches every parse exception and returns `None`, otherwise
converts the parsed datetime to Eastern. -/
def parseTime (rawParse : String → Except String PyDateTime)
    (locOff convOff : Int → Int) (s : String) : Option PyDateTime :=
  if s = "" then none
  else
    match rawParse s with
    | .ok dt => some (toEastern locOff convOff dt)
    | .error _ => none

/-- The spec's `normalize`: parse an ISO time string and anchor it to the
reference (Eastern) zone, exactly `_to_eastern(parser.parse(s))`. -/
def normalize (locOff convOff : Int → Int) (s : TimeStr) : PyDateTime :=
  toEastern locOff convOff (parseTimeStr s)

/-- Python `==` on datetimes: two aware datetimes compare equal iff they
denote the same instant; two naive ones iff the wall times agree; a naive
and an aware datetime are never equal. -/
def dtEq : PyDateTime → PyDateTime → Bool
  | .naive w1, .naive w2 => w1 = w2
  | .aware w1 o1, .aware w2 o2 => w1 - o1 = w2 - o2
  | _, _ => false

/-- C9: normalization to the reference timezone is idempotent:
re-normalizing the string form of a normalized instant yields the same
instant (Python `==` on the aware datetimes), for every parseable ISO time
string and every localize/convert offset behaviour of the zone. -/
theorem c9_normalize_idempotent (locOff convOff : Int → Int) (s : TimeStr) :
    dtEq (normalize locOff convOff (isoformat (normalize locOff convOff s)))
      (normalize locOff convOff s) = true := by
  cases s <;> simp [normalize, parseTimeStr, isoformat, toEastern, dtEq]

/-- C10: the Time Normalizer returns null rather than raising: it yields
`none` on the empty (falsy) string and whenever the underlying parser
raises, and otherwise returns the Eastern-converted parse result — no
parse error ever propagates to the caller. -/
theorem c10_parse_never_raises (rawParse : String → Except String PyDateTime)
    (locOff convOff : Int → Int) (s : String) :
    (s = "" → parseTime rawParse locOff convOff s = none) ∧
    (∀ e, rawParse s = .error e → parseTime rawParse locOff convOff s = none) ∧
    (parseTime rawParse locOff convOff s = none ∨
      ∃ dt, rawParse s = .ok dt ∧
        parseTime rawParse locOff convOff s = some (toEastern locOff convOff dt)) := by
  refine ⟨fun h => by simp [parseTime, h], fun e he => ?_, ?_⟩
  · by_cases hs : s = ""
    · simp [parseTime, hs]
    · simp [parseTime, hs, he]
  · by_cases hs : s = ""
    · exact Or.inl (by simp [parseTime, hs])
    · cases hr : rawParse s with
      | ok dt => exact Or.inr ⟨dt, rfl, by simp [parseTime, hs, hr]⟩
      | error e => exact Or.inl (by simp [parseTime, hs, hr])

/-- A parser behaviour used to instantiate the C10 theorem concretely. -/
def cRawParse : String → Except String PyDateTime := fun t =>
  if t = "not a time" then .error "ParserError: Unknown string format"
  else .ok (.naive 5)

/-- C10 witness: at the concrete malformed input "not a time", the
underlying parser raises, and `parseTime` returns `none`. -/
theorem c10_parse_never_raises_witness :
    cRawParse "not a time" = .error "ParserError: Unknown string format" ∧
    parseTime cRawParse (fun _ => -300) (fun _ => -300) "not a time" = none :=
  ⟨rfl, (c10_parse_never_raises cRawParse (fun _ => -300) (fun _ => -300)
      "not a time").2.1 "ParserError: Unknown string format" rfl⟩

/-! ## JSON values and the Python string operations used on the model response -/

/-- Values produced by `json.loads`. -/
inductive JValue
  | jnull
  | jbool (b : Bool)
  | jnum (n : Int)
  | jstr (s : String)
  | jarr (xs : List JValue)
  | jobj (fields : List (String × JValue))

/-- Python `str.strip()` on a character list: drop whitespace from both
ends. -/
def listTrim (xs : List Char) : List Char :=
  ((xs.dropWhile Char.isWhitespace).reverse.dropWhile Char.isWhitespace).reverse

/-- Everything after the first occurrence of `sep` (assumed nonempty) in
`xs`; `none` when `sep` does not occur. -/
def afterFirst (sep : List Char) : List Char → Option (List Char)
  | [] => none
  | x :: xs =>
    if sep.isPrefixOf (x :: xs) then some (List.drop sep.length (x :: xs))
    else afterFirst sep xs

/-- Everything before the first occurrence of `sep` in `xs` (all of `xs`
when `sep` does not occur). -/
def beforeFirst (sep : List Char) : List Char → List Char
  | [] => []
  | x :: xs =>
    if sep.isPrefixOf (x :: xs) then [] else x :: beforeFirst sep xs

/-- Python `sep in s` (for nonempty `sep`). -/
def pyContains (sep xs : List Char) : Bool := (afterFirst sep xs).isSome

theorem afterFirst_length_lt (c : Char) (cs : List Char) :
    ∀ xs ys, afterFirst (c :: cs) xs = some ys → ys.length < xs.length := by
  intro xs
  induction xs with
  | nil => intro ys h; simp [afterFirst] at h
  | cons x xs ih =>
    intro ys h
    by_cases hp : (c :: cs).isPrefixOf (x :: xs)
    · simp only [afterFirst, hp, if_pos] at h
      cases h
      simp only [List.length_drop, List.length_cons]
      omega
    · simp only [afterFirst, hp, if_neg, Bool.false_eq_true, not_false_iff] at h
      have := ih ys h
      simp only [List.length_cons]
      omega

/-- Python `s.split(sep)` for a nonempty separator: leftmost,
non-overlapping occurrences. -/
def pySplitNE (c : Char) (cs : List Char) (xs : List Char) : List (List Char) :=
  match h : afterFirst (c :: cs) xs with
  | none => [xs]
  | some rest => beforeFirst (c :: cs) xs :: pySplitNE c cs rest
termination_by xs.length
decreasing_by exact afterFirst_length_lt c cs xs rest h

/-- Python `s.split(sep)`, specialised to the nonempty fence separators
used by the code. -/
def pySplit (sep xs : List Char) : List (List Char) :=
  match sep with
  | [] => [xs]
  | c :: cs => pySplitNE c cs xs

/-- Python `parts[i]` (the code only indexes positions that exist). -/
def pyIdx (parts : List (List Char)) (i : Nat) : List Char := parts.getD i []

/-- The code-fence markers the code looks for. -/
def fenceJson : List Char := "```json".toList

/-- The bare code-fence marker. -/
def fence3 : List Char := "```".toList

/-- The backquote character both fence markers start with. -/
def backquote : Char := Char.ofNat 96

/-- The fence-stripping step of `schedule_complete` (lines 224–228):
`cleaned.split("```json")[1].split("```")[0].strip()` when "```json"
occurs, else the same with "```", else the text unchanged. -/
def clean_response (g : List Char) : List Char :=
  if pyContains fenceJson g then
    listTrim (pyIdx (pySplit fence3 (pyIdx (pySplit fenceJson g) 1)) 0)
  else if pyContains fence3 g then
    listTrim (pyIdx (pySplit fence3 (pyIdx (pySplit fence3 g) 1)) 0)
  else g

/-- Index of the first occurrence of a character (Python `str.find`,
with `none` for -1). -/
def findIdx (ch : Char) : List Char → Option Nat
  | [] => none
  | x :: xs => if x = ch then some 0 else (findIdx ch xs).map (· + 1)

/-- Index of the last occurrence of a character (Python `str.rfind`,
with `none` for -1). -/
def rfindIdx (ch : Char) : List Char → Option Nat
  | [] => none
  | x :: xs =>
    match rfindIdx ch xs with
    | some i => some (i + 1)
    | none => if x = ch then some 0 else none

/-- The JSON-extraction step of `schedule_complete` (lines 221, 230–239):
strip the response, strip optional code fences, then parse
`cleaned[first '[' : last ']' + 1]` when both brackets occur, else parse
the whole cleaned text. `jsonParse` models `json.loads`. -/
def attempted_parse (jsonParse : String → Except String JValue)
    (respText : String) : Except String JValue :=
  let g := listTrim respText.toList
  let cleaned := clean_response g
  match findIdx '[' cleaned, rfindIdx ']' cleaned with
  | some i, some j => jsonParse (String.mk ((cleaned.drop i).take (j + 1 - i)))
  | _, _ => jsonParse (String.mk cleaned)

/-- Python iteration over a `json.loads` result, as used by
`for i, event in enumerate(events_to_create, 1)`: a list yields its
elements, a dict its keys, a string its characters; other values are not
iterable (`TypeError`). -/
def pyIterate : JValue → Option (List JValue)
  | .jarr xs => some xs
  | .jobj fs => some (fs.map fun p => .jstr p.1)
  | .jstr s => some (s.toList.map fun ch => .jstr (String.mk [ch]))
  | _ => none

/-- The per-element validation of `schedule_complete` (line 244):
`isinstance(event, dict) and all(key in event for key in
['summary', 'start_time', 'end_time'])`. -/
def isValidEvent : JValue → Bool
  | .jobj fs =>
    fs.any (fun p => p.1 == "summary") && fs.any (fun p => p.1 == "start_time")
      && fs.any (fun p => p.1 == "end_time")
  | _ => false

/-- Python `gemini_response[:200]`. -/
def truncate200 (xs : List Char) : List Char := xs.take 200

/-- The parse-and-validate stage of `schedule_complete` (lines 221–256):
extract and parse the JSON array, keep elements passing `isValidEvent`,
fail when parsing raises (`json.JSONDecodeError`, line 254), when the
parsed value is not iterable (a `TypeError` escaping to the outer handler,
line 278), or when no element survives validation (line 249). -/
def parse_and_validate (jsonParse : String → Except String JValue)
    (respText : String) : Except String (List JValue) :=
  let g := listTrim respText.toList
  match attempted_parse jsonParse respText with
  | .error _ =>
      .error ("Gemini returned invalid JSON. Response: "
        ++ String.mk (truncate200 g) ++ "...")
  | .ok v =>
    match pyIterate v with
    | none => .error "Scheduling workflow failed: object is not iterable"
    | some elems =>
      let valid := elems.filter isValidEvent
      if valid.isEmpty then .error "No valid events generated by Gemini"
      else .ok valid

theorem findIdx_append_cons (c : Char) (p r : List Char) (hp : c ∉ p) :
    findIdx c (p ++ c :: r) = some p.length := by
  induction p with
  | nil => simp [findIdx]
  | cons x xs ih =>
    have hx : ¬ x = c := fun h => hp (h ▸ List.mem_cons_self x xs)
    have hxs : c ∉ xs := fun h => hp (List.mem_cons_of_mem x h)
    simp [findIdx, hx, ih hxs]

theorem rfindIdx_eq_none (c : Char) (s : List Char) (hs : c ∉ s) :
    rfindIdx c s = none := by
  induction s with
  | nil => rfl
  | cons x xs ih =>
    have hx : ¬ x = c := fun h => hs (h ▸ List.mem_cons_self x xs)
    have hxs : c ∉ xs := fun h => hs (List.mem_cons_of_mem x h)
    simp [rfindIdx, ih hxs, hx]

theorem rfindIdx_append_cons (c : Char) (l s : List Char) (hs : c ∉ s) :
    rfindIdx c (l ++ c :: s) = some l.length := by
  induction l with
  | nil => simp [rfindIdx, rfindIdx_eq_none c s hs]
  | cons x xs ih => simp [rfindIdx, ih]

theorem clean_response_id (g : List Char)
    (h1 : pyContains fenceJson g = false) (h2 : pyContains fence3 g = false) :
    clean_response g = g := by
  simp [clean_response, h1, h2]

/-- C4: the Schedule Proposer keeps exactly the elements of the parsed
model output that are objects containing all of `summary`, `start_time`
and `end_time`, dropping other elements individually; it never returns an
empty success, failing when zero elements survive validation or when JSON
parsing raises. -/
theorem c4_validation_policy (jsonParse : String → Except String JValue)
    (resp : String) :
    (∀ evs, parse_and_validate jsonParse resp = .ok evs → evs ≠ []) ∧
    (∀ v elems, attempted_parse jsonParse resp = .ok v → pyIterate v = some elems →
      (((elems.filter isValidEvent).isEmpty = true →
          parse_and_validate jsonParse resp =
            .error "No valid events generated by Gemini") ∧
        ((elems.filter isValidEvent).isEmpty = false →
          parse_and_validate jsonParse resp = .ok (elems.filter isValidEvent)) ∧
        ∀ e, e ∈ elems.filter isValidEvent ↔ e ∈ elems ∧ isValidEvent e = true)) ∧
    (∀ err, attempted_parse jsonParse resp = .error err →
      parse_and_validate jsonParse resp =
        .error ("Gemini returned invalid JSON. Response: "
          ++ String.mk (truncate200 (listTrim resp.toList)) ++ "...")) := by
  have heq : parse_and_validate jsonParse resp =
      match attempted_parse jsonParse resp with
      | .error _ =>
          .error ("Gemini returned invalid JSON. Response: "
            ++ String.mk (truncate200 (listTrim resp.toList)) ++ "...")
      | .ok v =>
        match pyIterate v with
        | none => .error "Scheduling workflow failed: object is not iterable"
        | some elems =>
          if (elems.filter isValidEvent).isEmpty then
            .error "No valid events generated by Gemini"
          else .ok (elems.filter isValidEvent) := rfl
  refine ⟨?_, ?_, ?_⟩
  · intro evs h
    rw [heq] at h
    split at h
    · exact absurd h (by simp)
    · split at h
      · exact absurd h (by simp)
      · split at h
        · exact absurd h (by simp)
        · rename_i hne
          cases h
          simpa [List.isEmpty_iff] using hne
  · intro v elems hap hit
    refine ⟨?_, ?_, fun e => List.mem_filter⟩
    · intro he
      rw [heq, hap]
      simp only [hit, he, if_pos]
    · intro he
      rw [heq, hap]
      simp only [hit, he, Bool.false_eq_true, if_neg, not_false_iff]
  · intro err hap
    rw [heq, hap]

/-- A `json.loads` behaviour used to instantiate C4 and C5 concretely:
only the literal text "[ok]" parses, into an array with one well-formed
event object and one stray number. -/
def cJsonParse : String → Except String JValue := fun s =>
  if s = "[ok]" then
    .ok (.jarr [.jobj [("summary", .jstr "a"), ("start_time", .jstr "b"),
      ("end_time", .jstr "c")], .jnum 1])
  else .error "Expecting value"

/-- C4 witness: on a concrete response whose parsed output holds one
well-formed object and one malformed element, validation keeps exactly the
well-formed object and the stage succeeds. -/
theorem c4_validation_policy_witness :
    attempted_parse cJsonParse "[ok]" =
      .ok (.jarr [.jobj [("summary", .jstr "a"), ("start_time", .jstr "b"),
        ("end_time", .jstr "c")], .jnum 1]) ∧
    parse_and_validate cJsonParse "[ok]" =
      .ok [.jobj [("summary", .jstr "a"), ("start_time", .jstr "b"),
        ("end_time", .jstr "c")]] :=
  ⟨rfl, ((c4_validation_policy cJsonParse "[ok]").2.1
      (.jarr [.jobj [("summary", .jstr "a"), ("start_time", .jstr "b"),
        ("end_time", .jstr "c")], .jnum 1])
      [.jobj [("summary", .jstr "a"), ("start_time", .jstr "b"),
        ("end_time", .jstr "c")], .jnum 1] rfl rfl).2.1 rfl⟩

theorem isPrefixOf_append_self (l r : List Char) : l.isPrefixOf (l ++ r) = true := by
  induction l with
  | nil => simp [List.isPrefixOf]
  | cons x xs ih => simp [List.isPrefixOf, ih]

theorem afterFirst_boundary (q : Char) (sep' r : List Char) :
    ∀ a : List Char, q ∉ a →
      afterFirst (q :: sep') (a ++ ((q :: sep') ++ r)) = some r := by
  intro a
  induction a with
  | nil =>
    intro _
    show afterFirst (q :: sep') (q :: (sep' ++ r)) = some r
    have hpre : (q :: sep').isPrefixOf (q :: (sep' ++ r)) = true := by
      simp [List.isPrefixOf, isPrefixOf_append_self]
    have hdrop : List.drop (q :: sep').length (q :: (sep' ++ r)) = r := by
      simp [List.length_cons, List.drop_succ_cons, List.drop_left]
    simp [afterFirst, hpre, hdrop]
  | cons x a' ih =>
    intro ha
    have hx : (q == x) = false := by
      have hne : x ≠ q := fun hxq => ha (hxq ▸ List.mem_cons_self x a')
      exact beq_eq_false_iff_ne.mpr (Ne.symm hne)
    have ha' : q ∉ a' := fun h => ha (List.mem_cons_of_mem x h)
    show afterFirst (q :: sep') (x :: (a' ++ ((q :: sep') ++ r))) = some r
    simp only [afterFirst]
    rw [if_neg (by simp [List.isPrefixOf, hx])]
    exact ih ha'

theorem beforeFirst_boundary (q : Char) (sep' r : List Char) :
    ∀ b : List Char, q ∉ b →
      beforeFirst (q :: sep') (b ++ ((q :: sep') ++ r)) = b := by
  intro b
  induction b with
  | nil =>
    intro _
    show beforeFirst (q :: sep') (q :: (sep' ++ r)) = []
    have hpre : (q :: sep').isPrefixOf (q :: (sep' ++ r)) = true := by
      simp [List.isPrefixOf, isPrefixOf_append_self]
    simp [beforeFirst, hpre]
  | cons x b' ih =>
    intro hb
    have hx : (q == x) = false := by
      have hne : x ≠ q := fun hxq => hb (hxq ▸ List.mem_cons_self x b')
      exact beq_eq_false_iff_ne.mpr (Ne.symm hne)
    have hb' : q ∉ b' := fun h => hb (List.mem_cons_of_mem x h)
    show beforeFirst (q :: sep') (x :: (b' ++ ((q :: sep') ++ r))) = x :: b'
    simp only [beforeFirst]
    rw [if_neg (by simp [List.isPrefixOf, hx])]
    rw [ih hb']

theorem afterFirst_none_of_not_mem (q : Char) (sep' : List Char) :
    ∀ xs : List Char, q ∉ xs → afterFirst (q :: sep') xs = none := by
  intro xs
  induction xs with
  | nil => intro _; rfl
  | cons x t ih =>
    intro h
    have hx : (q == x) = false := by
      have hne : x ≠ q := fun hxq => h (hxq ▸ List.mem_cons_self x t)
      exact beq_eq_false_iff_ne.mpr (Ne.symm hne)
    simp only [afterFirst]
    rw [if_neg (by simp [List.isPrefixOf, hx])]
    exact ih (fun hm => h (List.mem_cons_of_mem x hm))

theorem afterFirst_append_none (q : Char) (sep' t : List Char)
    (ht : afterFirst (q :: sep') t = none) :
    ∀ b : List Char, q ∉ b → afterFirst (q :: sep') (b ++ t) = none := by
  intro b
  induction b with
  | nil => intro _; simpa using ht
  | cons x b' ih =>
    intro hb
    have hx : (q == x) = false := by
      have hne : x ≠ q := fun hxq => hb (hxq ▸ List.mem_cons_self x b')
      exact beq_eq_false_iff_ne.mpr (Ne.symm hne)
    show afterFirst (q :: sep') (x :: (b' ++ t)) = none
    simp only [afterFirst]
    rw [if_neg (by simp [List.isPrefixOf, hx])]
    exact ih (fun hm => hb (List.mem_cons_of_mem x hm))

theorem pySplitNE_none (q : Char) (sep' xs : List Char)
    (h : afterFirst (q :: sep') xs = none) :
    pySplitNE q sep' xs = [xs] := by
  rw [pySplitNE.eq_def]
  split
  · rfl
  · rename_i r heq
    rw [h] at heq
    exact Option.noConfusion heq

theorem pySplitNE_some (q : Char) (sep' xs rest : List Char)
    (h : afterFirst (q :: sep') xs = some rest) :
    pySplitNE q sep' xs = beforeFirst (q :: sep') xs :: pySplitNE q sep' rest := by
  rw [pySplitNE.eq_def]
  split
  · rename_i heq
    rw [h] at heq
    exact Option.noConfusion heq
  · rename_i r heq
    rw [h] at heq
    injection heq with h2
    rw [h2]

theorem pySplit_idx0_none (q : Char) (sep' xs : List Char)
    (h : afterFirst (q :: sep') xs = none) :
    pyIdx (pySplit (q :: sep') xs) 0 = xs := by
  show pyIdx (pySplitNE q sep' xs) 0 = xs
  rw [pySplitNE_none q sep' xs h]
  rfl

theorem pySplit_idx0_some (q : Char) (sep' xs rest : List Char)
    (h : afterFirst (q :: sep') xs = some rest) :
    pyIdx (pySplit (q :: sep') xs) 0 = beforeFirst (q :: sep') xs := by
  show pyIdx (pySplitNE q sep' xs) 0 = beforeFirst (q :: sep') xs
  rw [pySplitNE_some q sep' xs rest h]
  rfl

theorem pySplit_idx1_some (q : Char) (sep' xs rest : List Char)
    (h : afterFirst (q :: sep') xs = some rest) :
    pyIdx (pySplit (q :: sep') xs) 1 = pyIdx (pySplit (q :: sep') rest) 0 := by
  show pyIdx (pySplitNE q sep' xs) 1 = pyIdx (pySplitNE q sep' rest) 0
  rw [pySplitNE_some q sep' xs rest h]
  rfl

theorem clean_response_fence_json (a b c : List Char)
    (ha : backquote ∉ a) (hb : backquote ∉ b)
    (hnc : pyContains fenceJson (fence3 ++ c) = false) :
    clean_response (a ++ (fenceJson ++ (b ++ (fence3 ++ c)))) = listTrim b := by
  have hfj : fenceJson = backquote :: "``json".toList := by decide
  have hf3 : fence3 = backquote :: "``".toList := by decide
  have h1 : afterFirst fenceJson (a ++ (fenceJson ++ (b ++ (fence3 ++ c))))
      = some (b ++ (fence3 ++ c)) := by
    rw [hfj]
    exact afterFirst_boundary backquote _ _ a ha
  have hcont : pyContains fenceJson (a ++ (fenceJson ++ (b ++ (fence3 ++ c))))
      = true := by
    simp [pyContains, h1]
  have hax : afterFirst fenceJson (fence3 ++ c) = none := by
    have hnc' : (afterFirst fenceJson (fence3 ++ c)).isSome = false := hnc
    cases hq : afterFirst fenceJson (fence3 ++ c) with
    | none => rfl
    | some r => rw [hq] at hnc'; simp at hnc'
  have hrest : afterFirst fenceJson (b ++ (fence3 ++ c)) = none := by
    rw [hfj] at hax ⊢
    exact afterFirst_append_none backquote _ _ hax b hb
  have h2 : afterFirst fence3 (b ++ (fence3 ++ c)) = some c := by
    rw [hf3]
    exact afterFirst_boundary backquote _ _ b hb
  have h3 : beforeFirst fence3 (b ++ (fence3 ++ c)) = b := by
    rw [hf3]
    exact beforeFirst_boundary backquote _ _ b hb
  unfold clean_response
  rw [if_pos hcont]
  have hX : pyIdx (pySplit fenceJson (a ++ (fenceJson ++ (b ++ (fence3 ++ c))))) 1
      = b ++ (fence3 ++ c) := by
    rw [hfj] at h1 hrest ⊢
    rw [pySplit_idx1_some _ _ _ _ h1, pySplit_idx0_none _ _ _ hrest]
  rw [hX]
  rw [hf3] at h2 h3 ⊢
  rw [pySplit_idx0_some _ _ _ _ h2, h3]

theorem clean_response_fence_plain (a b c : List Char)
    (hnj : pyContains fenceJson (a ++ (fence3 ++ (b ++ (fence3 ++ c)))) = false)
    (ha : backquote ∉ a) (hb : backquote ∉ b) :
    clean_response (a ++ (fence3 ++ (b ++ (fence3 ++ c)))) = listTrim b := by
  have hf3 : fence3 = backquote :: "``".toList := by decide
  have h1 : afterFirst fence3 (a ++ (fence3 ++ (b ++ (fence3 ++ c))))
      = some (b ++ (fence3 ++ c)) := by
    rw [hf3]
    exact afterFirst_boundary backquote _ _ a ha
  have hcont3 : pyContains fence3 (a ++ (fence3 ++ (b ++ (fence3 ++ c))))
      = true := by
    simp [pyContains, h1]
  have h2 : afterFirst fence3 (b ++ (fence3 ++ c)) = some c := by
    rw [hf3]
    exact afterFirst_boundary backquote _ _ b hb
  have h3 : beforeFirst fence3 (b ++ (fence3 ++ c)) = b := by
    rw [hf3]
    exact beforeFirst_boundary backquote _ _ b hb
  have h4 : afterFirst fence3 b = none := by
    rw [hf3]
    exact afterFirst_none_of_not_mem backquote _ b hb
  unfold clean_response
  rw [if_neg (by simp [hnj]), if_pos hcont3]
  have hX : pyIdx (pySplit fence3 (a ++ (fence3 ++ (b ++ (fence3 ++ c))))) 1
      = b := by
    rw [hf3] at h1 h2 h3 ⊢
    rw [pySplit_idx1_some _ _ _ _ h1, pySplit_idx0_some _ _ _ _ h2, h3]
  rw [hX]
  rw [hf3] at h4 ⊢
  rw [pySplit_idx0_none _ _ _ h4]

theorem attempted_parse_cleaned (jsonParse : String → Except String JValue)
    (resp : String) (cl : List Char)
    (hcl : clean_response (listTrim resp.toList) = cl) :
    (∀ p mid s, cl = p ++ ('[' :: mid ++ [']']) ++ s →
      '[' ∉ p → ']' ∉ s →
      attempted_parse jsonParse resp = jsonParse (String.mk ('[' :: mid ++ [']']))) ∧
    ((findIdx '[' cl = none ∨ rfindIdx ']' cl = none) →
      attempted_parse jsonParse resp = jsonParse (String.mk cl)) := by
  constructor
  · intro p mid s hg hp hs
    have hfind : findIdx '[' cl = some p.length := by
      rw [hg]
      have : p ++ ('[' :: mid ++ [']']) ++ s = p ++ '[' :: (mid ++ ']' :: s) := by
        simp
      rw [this]
      exact findIdx_append_cons '[' p (mid ++ ']' :: s) hp
    have hrfind : rfindIdx ']' cl = some (p.length + mid.length + 1) := by
      rw [hg]
      have : p ++ ('[' :: mid ++ [']']) ++ s = (p ++ '[' :: mid) ++ ']' :: s := by
        simp
      rw [this]
      have := rfindIdx_append_cons ']' (p ++ '[' :: mid) s hs
      simpa [Nat.add_comm, Nat.add_assoc, Nat.add_left_comm] using this
    have hslice :
        (cl.drop p.length).take (p.length + mid.length + 1 + 1 - p.length)
          = '[' :: mid ++ [']'] := by
      rw [hg]
      have h1 : p ++ ('[' :: mid ++ [']']) ++ s = p ++ (('[' :: mid ++ [']']) ++ s) := by
        simp
      rw [h1, List.drop_left]
      have h2 : p.length + mid.length + 1 + 1 - p.length
          = ('[' :: mid ++ [']']).length := by
        simp; omega
      rw [h2, List.take_left]
    unfold attempted_parse
    simp only [hcl, hfind, hrfind, hslice]
  · intro h
    unfold attempted_parse
    simp only [hcl]
    rcases h with h | h
    · rw [h]
    · rw [h]
      cases findIdx '[' cl <;> rfl

/-- C5: the Schedule Proposer strips optional code-fence wrapping, then
parses as JSON the substring of the remaining text from its first '[' to
its last ']', or the entire remaining text when no such bracket pair is
present — so a JSON array surrounded by extra prose is still extracted and
parsed. Covered cases: no fence present (the remaining text is the
stripped response); a "```json"-fenced block (possibly surrounded by
prose); a plain "```"-fenced block (possibly surrounded by prose) — in the
fenced cases the fence content is what remains, and the bracket rule then
applies to it. -/
theorem c5_array_extraction (jsonParse : String → Except String JValue)
    (resp : String) :
    (pyContains fenceJson (listTrim resp.toList) = false →
      pyContains fence3 (listTrim resp.toList) = false →
      (∀ p mid s, listTrim resp.toList = p ++ ('[' :: mid ++ [']']) ++ s →
        '[' ∉ p → ']' ∉ s →
        attempted_parse jsonParse resp = jsonParse (String.mk ('[' :: mid ++ [']']))) ∧
      ((findIdx '[' (listTrim resp.toList) = none ∨
          rfindIdx ']' (listTrim resp.toList) = none) →
        attempted_parse jsonParse resp = jsonParse (String.mk (listTrim resp.toList)))) ∧
    (∀ a b c, listTrim resp.toList = a ++ (fenceJson ++ (b ++ (fence3 ++ c))) →
      backquote ∉ a → backquote ∉ b →
      pyContains fenceJson (fence3 ++ c) = false →
      clean_response (listTrim resp.toList) = listTrim b ∧
      ((∀ p mid s, listTrim b = p ++ ('[' :: mid ++ [']']) ++ s →
        '[' ∉ p → ']' ∉ s →
        attempted_parse jsonParse resp = jsonParse (String.mk ('[' :: mid ++ [']']))) ∧
      ((findIdx '[' (listTrim b) = none ∨ rfindIdx ']' (listTrim b) = none) →
        attempted_parse jsonParse resp = jsonParse (String.mk (listTrim b))))) ∧
    (∀ a b c, listTrim resp.toList = a ++ (fence3 ++ (b ++ (fence3 ++ c))) →
      pyContains fenceJson (listTrim resp.toList) = false →
      backquote ∉ a → backquote ∉ b →
      clean_response (listTrim resp.toList) = listTrim b ∧
      ((∀ p mid s, listTrim b = p ++ ('[' :: mid ++ [']']) ++ s →
        '[' ∉ p → ']' ∉ s →
        attempted_parse jsonParse resp = jsonParse (String.mk ('[' :: mid ++ [']']))) ∧
      ((findIdx '[' (listTrim b) = none ∨ rfindIdx ']' (listTrim b) = none) →
        attempted_parse jsonParse resp = jsonParse (String.mk (listTrim b))))) := by
  refine ⟨?_, ?_, ?_⟩
  · intro hf1 hf2
    exact attempted_parse_cleaned jsonParse resp _ (clean_response_id _ hf1 hf2)
  · intro a b c hg ha hb hnc
    have hcl : clean_response (listTrim resp.toList) = listTrim b := by
      rw [hg]
      exact clean_response_fence_json a b c ha hb hnc
    exact ⟨hcl, attempted_parse_cleaned jsonParse resp _ hcl⟩
  · intro a b c hg hnj ha hb
    have hcl : clean_response (listTrim resp.toList) = listTrim b := by
      rw [hg]
      rw [hg] at hnj
      exact clean_response_fence_plain a b c hnj ha hb
    exact ⟨hcl, attempted_parse_cleaned jsonParse resp _ hcl⟩

/-- C5 witness: concrete prose around a JSON array — the parser receives
exactly the bracketed substring — and a concrete "```json"-fenced
response — the fence is stripped and the parser again receives exactly the
bracketed substring. -/
theorem c5_array_extraction_witness :
    attempted_parse cJsonParse "Here is the schedule: [ok] enjoy" =
      cJsonParse "[ok]" ∧
    attempted_parse cJsonParse "```json\n[ok]\n```" = cJsonParse "[ok]" := by
  constructor
  · have h := ((c5_array_extraction cJsonParse
        "Here is the schedule: [ok] enjoy").1 rfl rfl).1
        "Here is the schedule: ".toList "ok".toList " enjoy".toList
        (by rfl) (by decide) (by decide)
    simpa using h
  · have h := (((c5_array_extraction cJsonParse "```json\n[ok]\n```").2.1
        [] "\n[ok]\n".toList [] (by decide) (by decide) (by decide)
        (by decide)).2.1)
        [] "ok".toList [] (by decide) (by decide) (by decide)
    simpa using h

/-! ## MCP session responses and the Calendar Context Fetcher -/

/-- One item of an MCP tool result's `content`; `text` is `none` when the
item has no `text` attribute. -/
structure MCPContent where
  text : Option String

/-- An MCP `call_tool` result: `isError` flag plus content items. -/
structure MCPResult where
  isError : Bool
  content : List MCPContent

/-- External calls the scheduler can issue through the borrowed session
or the LLM client, recorded as a trace. -/
inductive ExtCall
  | listTools
  | callTool (name : String)
  | generate
deriving DecidableEq

/-- The environment of external collaborators for one scheduling call:
`list_tools` outcome (error = the listing raised), the
`get_calendar_events` tool response (error = the call raised),
`json.loads`, the LLM response text, and the per-call result of
`create_calendar_event` (indexed by call number starting at 1; error =
the call raised). -/
structure Env where
  listToolsRes : Except String (List String)
  calendarRes : Except String MCPResult
  jsonParse : String → Except String JValue
  genText : String
  createBackend : Nat → Except String MCPResult

/-- Truthiness of a JSON value under Python. -/
def jTruthy : JValue → Bool
  | .jnull => false
  | .jbool b => b
  | .jnum n => n != 0
  | .jstr s => s != ""
  | .jarr xs => !xs.isEmpty
  | .jobj fs => !fs.isEmpty

/-- Python `d.get(k, default)`: `none` models the `AttributeError` raised
when the receiver is not a dict. -/
def pyGetD (v : JValue) (k : String) (d : JValue) : Option JValue :=
  match v with
  | .jobj fs => some (((fs.find? fun p => p.1 == k).map Prod.snd).getD d)
  | _ => none

/-- Python `d.get(k)`: outer `none` models `AttributeError` (receiver not
a dict), inner `none` models the Python `None` for a missing key. -/
def pyGet (v : JValue) (k : String) : Option (Option JValue) :=
  match v with
  | .jobj fs => some ((fs.find? fun p => p.1 == k).map Prod.snd)
  | _ => none

/-- Python `a or b` on optional JSON values (`None` is falsy). -/
def pyOr (a b : Option JValue) : Option JValue :=
  match a with
  | some v => if jTruthy v then some v else b
  | none => b

/-- Truthiness of an optional JSON value (`None` is falsy). -/
def optTruthy : Option JValue → Bool
  | none => false
  | some v => jTruthy v

/-- The raw bookings contributed by one content item of the
`get_calendar_events` response (lines 75–83): JSON-parse its text; a list
contributes its elements, a dict contributes `data.get('items', [])`
(`list.extend` iterates lists, dict keys and string characters); parse
failures and non-dict/non-list data are skipped (`except: continue`). -/
def contentEvents (jsonParse : String → Except String JValue)
    (item : MCPContent) : List JValue :=
  match item.text with
  | none => []
  | some t =>
    match jsonParse t with
    | .error _ => []
    | .ok (.jarr xs) => xs
    | .ok (.jobj fs) =>
      match (fs.find? fun p => p.1 == "items").map Prod.snd with
      | none => []
      | some (.jarr ys) => ys
      | some (.jobj gs) => gs.map fun p => .jstr p.1
      | some (.jstr s) => s.toList.map fun ch => .jstr (String.mk [ch])
      | some _ => []
    | .ok _ => []

/-- All raw bookings decoded from the `get_calendar_events` response
(`existing_events`, lines 73–83). -/
def existingOf (jsonParse : String → Except String JValue)
    (res : MCPResult) : List JValue :=
  (res.content.map (contentEvents jsonParse)).flatten

/-- `strftime('%Y-%m-%d %H:%M')` on our minute-precision datetimes: the
wall-clock value, with no offset information. -/
def strfMinute : PyDateTime → Int
  | .naive w => w
  | .aware w _ => w

/-- An `ExistingEvent` as formatted for the LLM (lines 97–101): summary
plus minute-precision Eastern wall-clock times. -/
structure FEvent where
  summary : JValue
  start_time : Int
  end_time : Int

/-- The per-booking formatting step (lines 90–107): read
`start`/`end` sub-objects, take `dateTime` or `date`, require both truthy,
parse them; any exception or missing data skips the booking. -/
def formatEvent (rawParse : String → Except String PyDateTime)
    (locOff convOff : Int → Int) (event : JValue) : Option FEvent := do
  let si ← pyGetD event "start" (.jobj [])
  let ei ← pyGetD event "end" (.jobj [])
  let sRaw ← pyGet si "dateTime"
  let sAlt ← pyGet si "date"
  let eRaw ← pyGet ei "dateTime"
  let eAlt ← pyGet ei "date"
  let sv := pyOr sRaw sAlt
  let ev2 := pyOr eRaw eAlt
  if optTruthy sv && optTruthy ev2 then
    match sv, ev2 with
    | some (.jstr ss), some (.jstr es) =>
      match rawParse ss, rawParse es with
      | .ok sdt, .ok edt => do
        let sm ← pyGetD event "summary" (.jstr "Event")
        some ⟨sm, strfMinute (toEastern locOff convOff sdt),
          strfMinute (toEastern locOff convOff edt)⟩
      | _, _ => none
    | _, _ => none
  else none

/-- The dict returned by `get_scheduling_context`, with one optional
field per key the code may set. -/
structure CtxResult where
  success : Bool
  error : Option String
  existing_events : Option (List FEvent)
  time_range : Option (Int × Int)
  calendar_access_working : Option Bool

/-- The success payload of `get_scheduling_context` (lines 85–114), built
from a delivered calendar response: format each raw booking, then return
success with `calendar_access_working = len(existing_events) > 0 or
len(formatted_events) >= 0`. -/
def fetchAndFormat (rawParse : String → Except String PyDateTime)
    (locOff convOff : Int → Int) (jsonParse : String → Except String JValue)
    (res : MCPResult) (sdt edt : PyDateTime) : CtxResult :=
  let existing := existingOf jsonParse res
  let formatted := existing.filterMap (formatEvent rawParse locOff convOff)
  ⟨true, none, some formatted, some (strfMinute sdt, strfMinute edt),
    some (decide (0 < existing.length) || decide (0 ≤ formatted.length))⟩

/-- `SimpleTimeScheduler.get_scheduling_context` (lines 50–116) together
with the trace of session calls it issues: parse the window (failing fast
on unparseable bounds), list the advertised tools (proceeding if the
listing itself raises), fail without calling when `get_calendar_events`
is not advertised, otherwise call it and format the response; a raising
call becomes the catch-all failure. -/
def get_scheduling_context (rawParse : String → Except String PyDateTime)
    (locOff convOff : Int → Int) (env : Env)
    (start_time end_time : String) : CtxResult × List ExtCall :=
  match parseTime rawParse locOff convOff start_time,
      parseTime rawParse locOff convOff end_time with
  | some sdt, some edt =>
    match env.listToolsRes with
    | .ok tools =>
      if "get_calendar_events" ∈ tools then
        match env.calendarRes with
        | .ok res =>
          (fetchAndFormat rawParse locOff convOff env.jsonParse res sdt edt,
            [.listTools, .callTool "get_calendar_events"])
        | .error e =>
          (⟨false, some ("Failed to get context: " ++ e), none, none, none⟩,
            [.listTools, .callTool "get_calendar_events"])
      else
        (⟨false, some "get_calendar_events tool not available in MCP session",
          none, none, none⟩, [.listTools])
    | .error _ =>
      match env.calendarRes with
      | .ok res =>
        (fetchAndFormat rawParse locOff convOff env.jsonParse res sdt edt,
          [.listTools, .callTool "get_calendar_events"])
      | .error e =>
        (⟨false, some ("Failed to get context: " ++ e), none, none, none⟩,
          [.listTools, .callTool "get_calendar_events"])
  | _, _ => (⟨false, some "Invalid time format", none, none, none⟩, [])

/-- C6: when the backend delivers zero bookings for a parseable window,
the Calendar Context Fetcher succeeds with an empty `existing_events`
list. -/
theorem c6_empty_calendar_success (rawParse : String → Except String PyDateTime)
    (locOff convOff : Int → Int) (env : Env) (start_time end_time : String)
    (sdt edt : PyDateTime) (tools : List String) (res : MCPResult)
    (hps : parseTime rawParse locOff convOff start_time = some sdt)
    (hpe : parseTime rawParse locOff convOff end_time = some edt)
    (htools : env.listToolsRes = .ok tools)
    (hmem : "get_calendar_events" ∈ tools)
    (hcal : env.calendarRes = .ok res)
    (hzero : existingOf env.jsonParse res = []) :
    (get_scheduling_context rawParse locOff convOff env start_time end_time).1.success
        = true ∧
    (get_scheduling_context rawParse locOff convOff env start_time end_time).1.existing_events
        = some [] := by
  simp [get_scheduling_context, hps, hpe, htools, hmem, hcal, fetchAndFormat, hzero]

/-- A concrete environment: tool advertised, calendar delivers one content
item whose text parses to an empty items list. -/
def cEnvEmpty : Env :=
  { listToolsRes := .ok ["get_calendar_events", "send_email"]
    calendarRes := .ok ⟨false, [⟨some "resp"⟩]⟩
    jsonParse := fun s => if s = "resp" then .ok (.jobj [("items", .jarr [])]) else .error "bad"
    genText := ""
    createBackend := fun _ => .ok ⟨false, []⟩ }

/-- C6 witness: a concrete parseable window against a backend with zero
bookings yields success with an empty list. -/
theorem c6_empty_calendar_success_witness :
    (get_scheduling_context cRawParse (fun _ => -300) (fun _ => -300) cEnvEmpty
        "2024-01-15 09:00" "2024-01-15 17:00").1.success = true ∧
    (get_scheduling_context cRawParse (fun _ => -300) (fun _ => -300) cEnvEmpty
        "2024-01-15 09:00" "2024-01-15 17:00").1.existing_events = some [] :=
  c6_empty_calendar_success cRawParse (fun _ => -300) (fun _ => -300) cEnvEmpty
    "2024-01-15 09:00" "2024-01-15 17:00"
    (toEastern (fun _ => -300) (fun _ => -300) (.naive 5))
    (toEastern (fun _ => -300) (fun _ => -300) (.naive 5))
    ["get_calendar_events", "send_email"] ⟨false, [⟨some "resp"⟩]⟩
    rfl rfl rfl (by decide) rfl rfl

/-- C7: when the advertised tool set lacks `get_calendar_events`, the
Calendar Context Fetcher fails with the tool-unavailable error and the
calendar-listing call is never issued. -/
theorem c7_tool_missing_no_call (rawParse : String → Except String PyDateTime)
    (locOff convOff : Int → Int) (env : Env) (start_time end_time : String)
    (sdt edt : PyDateTime) (tools : List String)
    (hps : parseTime rawParse locOff convOff start_time = some sdt)
    (hpe : parseTime rawParse locOff convOff end_time = some edt)
    (htools : env.listToolsRes = .ok tools)
    (hmem : "get_calendar_events" ∉ tools) :
    (get_scheduling_context rawParse locOff convOff env start_time end_time).1.success
        = false ∧
    (get_scheduling_context rawParse locOff convOff env start_time end_time).1.error
        = some "get_calendar_events tool not available in MCP session" ∧
    ExtCall.callTool "get_calendar_events" ∉
      (get_scheduling_context rawParse locOff convOff env start_time end_time).2 := by
  simp [get_scheduling_context, hps, hpe, htools, hmem]

/-- A concrete environment advertising no calendar tool. -/
def cEnvNoTool : Env :=
  { cEnvEmpty with listToolsRes := .ok ["send_email"] }

/-- C7 witness: with only `send_email` advertised, the fetch fails and the
calendar tool is never called. -/
theorem c7_tool_missing_no_call_witness :
    (get_scheduling_context cRawParse (fun _ => -300) (fun _ => -300) cEnvNoTool
        "2024-01-15 09:00" "2024-01-15 17:00").1.success = false ∧
    (get_scheduling_context cRawParse (fun _ => -300) (fun _ => -300) cEnvNoTool
        "2024-01-15 09:00" "2024-01-15 17:00").1.error
      = some "get_calendar_events tool not available in MCP session" ∧
    ExtCall.callTool "get_calendar_events" ∉
      (get_scheduling_context cRawParse (fun _ => -300) (fun _ => -300) cEnvNoTool
        "2024-01-15 09:00" "2024-01-15 17:00").2 :=
  c7_tool_missing_no_call cRawParse (fun _ => -300) (fun _ => -300) cEnvNoTool
    "2024-01-15 09:00" "2024-01-15 17:00"
    (toEastern (fun _ => -300) (fun _ => -300) (.naive 5))
    (toEastern (fun _ => -300) (fun _ => -300) (.naive 5))
    ["send_email"] rfl rfl rfl (by decide)

/-- C8: in every success result of the Calendar Context Fetcher the
`calendar_access_working` flag is `true`: the expression
`len(existing_events) > 0 or len(formatted_events) >= 0` computing it is a
tautology, so the flag never distinguishes a working calendar from an
empty or unreadable response. -/
theorem c8_flag_tautology (rawParse : String → Except String PyDateTime)
    (locOff convOff : Int → Int) (env : Env) (start_time end_time : String)
    (hs : (get_scheduling_context rawParse locOff convOff env start_time end_time).1.success
        = true) :
    (get_scheduling_context rawParse locOff convOff env start_time end_time).1.calendar_access_working
      = some true := by
  cases hps : parseTime rawParse locOff convOff start_time with
  | none =>
    rw [get_scheduling_context] at hs
    cases hpe : parseTime rawParse locOff convOff end_time <;>
      simp [hps, hpe] at hs
  | some sdt =>
    cases hpe : parseTime rawParse locOff convOff end_time with
    | none => simp [get_scheduling_context, hps, hpe] at hs
    | some edt =>
      cases htools : env.listToolsRes with
      | ok tools =>
        by_cases hmem : "get_calendar_events" ∈ tools
        · cases hcal : env.calendarRes with
          | ok res =>
            simp [get_scheduling_context, hps, hpe, htools, hmem, hcal,
              fetchAndFormat]
          | error e =>
            simp [get_scheduling_context, hps, hpe, htools, hmem, hcal] at hs
        · simp [get_scheduling_context, hps, hpe, htools, hmem] at hs
      | error e =>
        cases hcal : env.calendarRes with
        | ok res =>
          simp [get_scheduling_context, hps, hpe, htools, hcal, fetchAndFormat]
        | error e2 =>
          simp [get_scheduling_context, hps, hpe, htools, hcal] at hs

/-- C8 witness: the concrete empty-calendar success result carries
`calendar_access_working = true`. -/
theorem c8_flag_tautology_witness :
    (get_scheduling_context cRawParse (fun _ => -300) (fun _ => -300) cEnvEmpty
        "2024-01-15 09:00" "2024-01-15 17:00").1.calendar_access_working
      = some true :=
  c8_flag_tautology cRawParse (fun _ => -300) (fun _ => -300) cEnvEmpty
    "2024-01-15 09:00" "2024-01-15 17:00" rfl

/-! ## The Event Committer (`create_events`) -/

/-- A persisted-event confirmation record (lines 153–157): summary plus
the `isoformat()` strings of the Eastern-converted times. -/
structure CreatedEvent where
  summary : JValue
  start_time : TimeStr
  end_time : TimeStr

/-- The dict returned by `create_events`: `{"success": True, "events":
created}` or `{"error": ..., "success": False}` — the failure dict has no
`events` key. -/
structure CommitResult where
  success : Bool
  events : Option (List CreatedEvent)
  error : Option String

/-- The error-text extraction of lines 143–149: the first content item
carrying a `text` attribute, defaulting to "Unknown error". -/
def extractErrorText (content : List MCPContent) : String :=
  match content.filterMap (fun c => c.text) with
  | [] => "Unknown error"
  | t :: _ => t

/-- Python `event[k]` on a parsed JSON value: `none` models the
`KeyError`/`TypeError` raised when the key is missing or the value is not
a dict. -/
def evKey (ev : JValue) (k : String) : Option JValue :=
  match ev with
  | .jobj fs => (fs.find? fun p => p.1 == k).map Prod.snd
  | _ => none

/-- `parser.parse(event[k])` (lines 126–127): `KeyError` on a missing key,
`TypeError` when the value is not a string, otherwise the parser's own
outcome. -/
def evTimeParse (rawParse : String → Except String PyDateTime)
    (ev : JValue) (k : String) : Except String PyDateTime :=
  match evKey ev k with
  | none => .error ("KeyError: " ++ k)
  | some (.jstr s) => rawParse s
  | some _ => .error "TypeError: parser.parse expects a string"

/-- Whether one `create_calendar_event` call completed without raising and
without `isError` (lines 140–151). -/
def callOk : Except String MCPResult → Bool
  | .ok r => !r.isError
  | .error _ => false

/-- The `"Failed to create events: ..."` message produced when a creation
call raises or reports `isError` (lines 151, 162). -/
def createFailMsg : Except String MCPResult → String
  | .error e => "Failed to create events: " ++ e
  | .ok r => "Failed to create events: Calendar event creation failed: "
      ++ extractErrorText r.content

/-- The confirmation record appended for one successfully created event
(lines 153–157). -/
def mkCreated (locOff convOff : Int → Int) (sm : JValue)
    (sdt edt : PyDateTime) : CreatedEvent :=
  ⟨sm, isoformat (toEastern locOff convOff sdt),
    isoformat (toEastern locOff convOff edt)⟩

/-- The loop of `create_events` (lines 123–157), with `i` the 1-based call
number and `acc` the `created` list so far. Returns the result dict, the
list of creation-call numbers actually issued, and the events actually
persisted in the backend (the side effects, which the code never deletes).
Any exception — time parse failure, missing key, raising call — or an
`isError` result aborts the loop into the failure dict, which discards
`created`. -/
def createEventsGo (rawParse : String → Except String PyDateTime)
    (locOff convOff : Int → Int) (backend : Nat → Except String MCPResult) :
    List JValue → Nat → List CreatedEvent →
      CommitResult × List Nat × List CreatedEvent
  | [], _, acc => (⟨true, some acc, none⟩, [], [])
  | ev :: rest, i, acc =>
    match evTimeParse rawParse ev "start_time" with
    | .error e => (⟨false, none, some ("Failed to create events: " ++ e)⟩, [], [])
    | .ok sdt =>
      match evTimeParse rawParse ev "end_time" with
      | .error e => (⟨false, none, some ("Failed to create events: " ++ e)⟩, [], [])
      | .ok edt =>
        match evKey ev "summary" with
        | none =>
          (⟨false, none, some "Failed to create events: KeyError: summary"⟩, [], [])
        | some sm =>
          match backend i with
          | .error e =>
            (⟨false, none, some ("Failed to create events: " ++ e)⟩, [i], [])
          | .ok r =>
            if r.isError then
              (⟨false, none,
                some ("Failed to create events: Calendar event creation failed: "
                  ++ extractErrorText r.content)⟩, [i], [])
            else
              let ce := mkCreated locOff convOff sm sdt edt
              let next := createEventsGo rawParse locOff convOff backend rest
                (i + 1) (acc ++ [ce])
              (next.1, i :: next.2.1, ce :: next.2.2)

/-- `SimpleTimeScheduler.create_events` (lines 118–162). -/
def create_events (rawParse : String → Except String PyDateTime)
    (locOff convOff : Int → Int) (backend : Nat → Except String MCPResult)
    (events : List JValue) : CommitResult × List Nat × List CreatedEvent :=
  createEventsGo rawParse locOff convOff backend events 1 []

/-- An event that the loop body can process without raising: both time
strings present and parseable, summary key present. -/
def evWellFormed (rawParse : String → Except String PyDateTime)
    (ev : JValue) : Prop :=
  (∃ sdt, evTimeParse rawParse ev "start_time" = .ok sdt) ∧
  (∃ edt, evTimeParse rawParse ev "end_time" = .ok edt) ∧
  (∃ sm, evKey ev "summary" = some sm)

theorem createEventsGo_run (rawParse : String → Except String PyDateTime)
    (locOff convOff : Int → Int) (backend : Nat → Except String MCPResult)
    (N : Nat) :
    ∀ (evs : List JValue) (i : Nat) (acc : List CreatedEvent),
    (∀ ev ∈ evs, evWellFormed rawParse ev) →
    (∀ j, i ≤ j → j < N → callOk (backend j) = true) →
    i ≤ N →
    ((i + evs.length ≤ N →
      (createEventsGo rawParse locOff convOff backend evs i acc).2.1 =
        List.range' i evs.length) ∧
    (N < i + evs.length → callOk (backend N) = false →
      (createEventsGo rawParse locOff convOff backend evs i acc).2.1 =
        List.range' i (N + 1 - i) ∧
      (createEventsGo rawParse locOff convOff backend evs i acc).1 =
        ⟨false, none, some (createFailMsg (backend N))⟩ ∧
      (createEventsGo rawParse locOff convOff backend evs i acc).2.2.length
        = N - i)) := by
  intro evs
  induction evs with
  | nil =>
    intro i acc _ _ _
    refine ⟨fun _ => by simp [createEventsGo], fun h _ => ?_⟩
    simp at h
    omega
  | cons ev rest ih =>
    intro i acc hwf hok hiN
    obtain ⟨⟨sdt, hsdt⟩, ⟨edt, hedt⟩, ⟨sm, hsm⟩⟩ :=
      hwf ev (List.mem_cons_self ev rest)
    by_cases hi : i = N
    · -- the current call is the one that fails (if any call fails here)
      subst hi
      constructor
      · intro hle
        simp only [List.length_cons] at hle
        omega
      · intro _ hcf
        cases hb : backend i with
        | error e =>
          have h1 : i + 1 - i = 1 := by omega
          refine ⟨?_, ?_, ?_⟩
          · simp [createEventsGo, hsdt, hedt, hsm, hb, h1, List.range']
          · simp [createEventsGo, hsdt, hedt, hsm, hb, createFailMsg]
          · simp [createEventsGo, hsdt, hedt, hsm, hb]
        | ok r =>
          have hre : r.isError = true := by
            simp only [callOk, hb] at hcf
            simpa using hcf
          have h1 : i + 1 - i = 1 := by omega
          refine ⟨?_, ?_, ?_⟩
          · simp [createEventsGo, hsdt, hedt, hsm, hb, hre, h1, List.range']
          · simp [createEventsGo, hsdt, hedt, hsm, hb, hre, createFailMsg]
          · simp [createEventsGo, hsdt, hedt, hsm, hb, hre]
    · -- the current call succeeds and the loop continues
      have hiltN : i < N := lt_of_le_of_ne hiN hi
      have hco : callOk (backend i) = true := hok i le_rfl hiltN
      cases hb : backend i with
      | error e => rw [hb] at hco; simp [callOk] at hco
      | ok r =>
        have hre : r.isError = false := by
          rw [hb] at hco
          simpa [callOk] using hco
        have hrest := ih (i + 1) (acc ++ [mkCreated locOff convOff sm sdt edt])
          (fun e he => hwf e (List.mem_cons_of_mem ev he))
          (fun j hj1 hj2 => hok j (by omega) hj2) (by omega)
        obtain ⟨hnof, hfail⟩ := hrest
        constructor
        · intro hle
          simp only [List.length_cons] at hle
          have hle' : (i + 1) + rest.length ≤ N := by omega
          simp only [createEventsGo, hsdt, hedt, hsm, hb, hre, Bool.false_eq_true,
            if_neg, not_false_iff]
          rw [hnof hle']
          simp [List.range'_succ]
        · intro hNlt hcf
          have hNlt' : N < (i + 1) + rest.length := by
            simp only [List.length_cons] at hNlt
            omega
          obtain ⟨hr0, hr1, hr2⟩ := hfail hNlt' hcf
          refine ⟨?_, ?_, ?_⟩
          · simp only [createEventsGo, hsdt, hedt, hsm, hb, hre, Bool.false_eq_true,
              if_neg, not_false_iff]
            rw [hr0]
            have hm : N + 1 - i = (N + 1 - (i + 1)) + 1 := by omega
            rw [hm, List.range'_succ]
          · simp only [createEventsGo, hsdt, hedt, hsm, hb, hre, Bool.false_eq_true,
              if_neg, not_false_iff]
            exact hr1
          · simp only [createEventsGo, hsdt, hedt, hsm, hb, hre, Bool.false_eq_true,
              if_neg, not_false_iff, List.length_cons]
            rw [hr2]
            omega

/-- C2: the Event Committer issues creation calls strictly in the order
of the input sequence, one at a time (call numbers 1, 2, …), and after the
first creation call that fails it issues no call for any later event:
when calls before N succeed and call N (if within range) fails, the
issued calls are exactly 1..M for N beyond the sequence and exactly 1..N
otherwise. -/
theorem c2_serialized_creation (rawParse : String → Except String PyDateTime)
    (locOff convOff : Int → Int) (backend : Nat → Except String MCPResult)
    (evs : List JValue) (N : Nat)
    (hwf : ∀ ev ∈ evs, evWellFormed rawParse ev)
    (hok : ∀ j, 1 ≤ j → j < N → callOk (backend j) = true)
    (hN : 1 ≤ N)
    (hfail : N ≤ evs.length → callOk (backend N) = false) :
    (evs.length < N →
      (create_events rawParse locOff convOff backend evs).2.1 =
        List.range' 1 evs.length) ∧
    (N ≤ evs.length →
      (create_events rawParse locOff convOff backend evs).2.1 =
        List.range' 1 N) := by
  have h := createEventsGo_run rawParse locOff convOff backend N evs 1 [] hwf hok hN
  constructor
  · intro hlt
    simpa [create_events] using h.1 (by omega)
  · intro hle
    have h2 := (h.2 (by omega) (hfail hle)).1
    simpa [create_events, Nat.add_sub_cancel] using h2

/-- A proposed event with all three keys and parseable time strings. -/
def cGoodEvent : JValue :=
  .jobj [("summary", .jstr "Focus block"), ("start_time", .jstr "2024-01-15 09:00"),
    ("end_time", .jstr "2024-01-15 10:00")]

/-- A backend whose second creation call reports `isError` with text
"boom" and whose other calls succeed. -/
def cBackendFail2 : Nat → Except String MCPResult := fun i =>
  if i = 2 then .ok ⟨true, [⟨some "boom"⟩]⟩ else .ok ⟨false, []⟩

/-- C2 witness: three well-formed events against a backend failing on call
2 — exactly calls 1 and 2 are issued, in order. -/
theorem c2_serialized_creation_witness :
    (create_events cRawParse (fun _ => -300) (fun _ => -300) cBackendFail2
        [cGoodEvent, cGoodEvent, cGoodEvent]).2.1 = [1, 2] := by
  have h := (c2_serialized_creation cRawParse (fun _ => -300) (fun _ => -300)
      cBackendFail2 [cGoodEvent, cGoodEvent, cGoodEvent] 2
      (by intro ev hev; fin_cases hev <;> exact ⟨⟨_, rfl⟩, ⟨_, rfl⟩, ⟨_, rfl⟩⟩)
      (by intro j h1 h2
          have hj : j = 1 := by omega
          subst hj
          rfl)
      (by omega)
      (fun _ => rfl)).2 (by simp)
  simpa [List.range'] using h

/-- C1 counterexample: two well-formed events, the backend failing on the
second creation call: one event has already been created (the side-effect
list has length 1), yet the failure dict returned by `create_events`
carries no `events` key at all (`events = none`) — it does not contain
the N-1 = 1 already-created records the claim requires, only the error
text. -/
theorem c1_counterexample :
    (create_events cRawParse (fun _ => -300) (fun _ => -300) cBackendFail2
        [cGoodEvent, cGoodEvent]).1.success = false ∧
    (create_events cRawParse (fun _ => -300) (fun _ => -300) cBackendFail2
        [cGoodEvent, cGoodEvent]).2.2.length = 1 ∧
    (create_events cRawParse (fun _ => -300) (fun _ => -300) cBackendFail2
        [cGoodEvent, cGoodEvent]).1.events = none ∧
    (create_events cRawParse (fun _ => -300) (fun _ => -300) cBackendFail2
        [cGoodEvent, cGoodEvent]).1.error =
      some "Failed to create events: Calendar event creation failed: boom" :=
  ⟨rfl, rfl, rfl, rfl⟩

/-- C1 (amended): if the backend reports failure on the Nth of M
well-formed proposed events (all earlier calls succeeding), the committer
aborts into a failure dict carrying the underlying error text; exactly
N-1 events have already been created in the calendar backend and are
never rolled back; but the failure dict itself includes no created-event
records (`events = none`). -/
theorem c1_partial_failure_report (rawParse : String → Except String PyDateTime)
    (locOff convOff : Int → Int) (backend : Nat → Except String MCPResult)
    (evs : List JValue) (N : Nat)
    (hwf : ∀ ev ∈ evs, evWellFormed rawParse ev)
    (hok : ∀ j, 1 ≤ j → j < N → callOk (backend j) = true)
    (hN : 1 ≤ N) (hNM : N ≤ evs.length)
    (hfail : callOk (backend N) = false) :
    (create_events rawParse locOff convOff backend evs).1.success = false ∧
    (create_events rawParse locOff convOff backend evs).1.error =
      some (createFailMsg (backend N)) ∧
    (create_events rawParse locOff convOff backend evs).1.events = none ∧
    (create_events rawParse locOff convOff backend evs).2.2.length = N - 1 := by
  have h := (createEventsGo_run rawParse locOff convOff backend N evs 1 []
      hwf hok hN).2 (by omega) hfail
  obtain ⟨_, h1, h2⟩ := h
  simp only [create_events]
  exact ⟨by rw [h1], by rw [h1], by rw [h1], by rw [h2]⟩

/-- C1 amended witness: three events, failure on call 2 — the failure dict
carries the underlying "boom" text and no events, while exactly one event
was created. -/
theorem c1_partial_failure_report_witness :
    (create_events cRawParse (fun _ => -300) (fun _ => -300) cBackendFail2
        [cGoodEvent, cGoodEvent, cGoodEvent]).1.error =
      some "Failed to create events: Calendar event creation failed: boom" ∧
    (create_events cRawParse (fun _ => -300) (fun _ => -300) cBackendFail2
        [cGoodEvent, cGoodEvent, cGoodEvent]).2.2.length = 1 := by
  have h := c1_partial_failure_report cRawParse (fun _ => -300) (fun _ => -300)
    cBackendFail2 [cGoodEvent, cGoodEvent, cGoodEvent] 2
    (by intro ev hev; fin_cases hev <;> exact ⟨⟨_, rfl⟩, ⟨_, rfl⟩, ⟨_, rfl⟩⟩)
    (by intro j h1 h2
        have hj : j = 1 := by omega
        subst hj
        rfl)
    (by omega) (by simp) rfl
  exact ⟨h.2.1, h.2.2.2⟩

/-! ## The Scheduling Orchestrator (`schedule_complete`) -/

/-- The arguments dict of `schedule_complete` (lines 168–171). -/
structure SchedArgs where
  start_time : String
  end_time : String
  events_to_schedule : List JValue
  user_prompt : String

/-- The dict returned by `schedule_complete`, with one optional field per
key any of its return paths may set. -/
structure SchedResult where
  success : Bool
  error : Option String
  message : Option String
  events_created : Option (List CreatedEvent)
  existing_events_considered : Option (List FEvent)
  generated_events : Option (List JValue)

/-- The configuration error returned when the Gemini client is absent
(line 175). -/
def cfgErrorMsg : String :=
  "Gemini client not initialized. Check LLM_API_KEY environment variable and install google-genai package."

/-- `SimpleTimeScheduler.schedule_complete` (lines 164–282) with its trace
of external calls. `geminiClient` models the module-level `gemini_client`
(`none` = unset/unconfigured). The prompt construction (lines 187–213) is
pure string building consumed only by the generation call, whose response
text is `env.genText`; the single generation call is recorded in the
trace. On context failure the context dict is returned as-is; on parse or
validation failure the corresponding error; on commit failure the error
wraps the committer's message and `generated_events` carries the full
validated proposal; on success the created events and the
existing-events snapshot are returned. -/
def schedule_complete (geminiClient : Option Unit)
    (rawParse : String → Except String PyDateTime) (locOff convOff : Int → Int)
    (env : Env) (args : SchedArgs) : SchedResult × List ExtCall :=
  match geminiClient with
  | none => (⟨false, some cfgErrorMsg, none, none, none, none⟩, [])
  | some _ =>
    let ctxc := get_scheduling_context rawParse locOff convOff env
      args.start_time args.end_time
    if ctxc.1.success then
      let existing := ctxc.1.existing_events.getD []
      let calls2 := ctxc.2 ++ [ExtCall.generate]
      match parse_and_validate env.jsonParse env.genText with
      | .error e => (⟨false, some e, none, none, none, none⟩, calls2)
      | .ok eventsToCreate =>
        let cr := create_events rawParse locOff convOff env.createBackend
          eventsToCreate
        let calls3 := calls2
          ++ cr.2.1.map (fun _ => ExtCall.callTool "create_calendar_event")
        if cr.1.success then
          (⟨true, none,
            some ("Scheduling completed! Generated and created "
              ++ toString (cr.1.events.getD []).length
              ++ " events in your calendar."),
            cr.1.events, some existing, none⟩, calls3)
        else
          (⟨false,
            some ("Events were generated by Gemini but creation failed: "
              ++ cr.1.error.getD ""),
            none, none, none, some eventsToCreate⟩, calls3)
    else
      (⟨false, ctxc.1.error, none, none, none, none⟩, ctxc.2)

/-- C3: with the language-model client unset, the Scheduling Orchestrator
returns failure with the configuration-error message immediately and
performs zero external calls — no calendar fetch, no model generation, no
event creation — whatever the rest of the environment would do. -/
theorem c3_unconfigured_llm_short_circuit
    (rawParse : String → Except String PyDateTime) (locOff convOff : Int → Int)
    (env : Env) (args : SchedArgs) :
    schedule_complete none rawParse locOff convOff env args =
      (⟨false, some cfgErrorMsg, none, none, none, none⟩, []) := rfl

end Mailbot
